import Mathlib

/-!
Verification development for the vibe-track work tracker.

This file shallowly embeds the algorithmic core of the repository:

* `isProductiveActivity` and `calculateWorkTimeForDate` (database.js),
* `analyzeWorkTime` / `createEmptyResult` (workTracker.js),
* the `get-hourly-stats` event walk and `addTimeToHours` (main.js),
* `calculateStreak` (main.js),
* `updateDailySummary` (database.js),
* `detectProject` / `detectFromPatterns` (projects.js).

Modelling conventions:

* Timestamps are `Int` milliseconds since the epoch (JavaScript `Date`
  arithmetic), with the local timezone modelled as UTC with offset 0, so
  `getHours t = (t / 3600000) % 24` with floor division.
* Durations are exact rationals (`ℚ`); JavaScript computes them as IEEE
  doubles via `(end - start) / 1000`, and no claim in this development
  depends on the sub-ulp error of that division.
* The JavaScript truthiness test `!s` on a nullable string is `jsStrFalsy`:
  true exactly on `none` (null/undefined) and `some ""`.
* The wall clock `new Date()` and the `date === todayStr` comparison are
  parameters `now : Int` and `isToday : Bool` of the embedded functions.
-/

/-- JavaScript falsiness of a nullable string: `!s` is true for
`null`/`undefined` and for the empty string. -/
def jsStrFalsy : Option String → Bool
  | none => true
  | some s => s = ""

/-- Test whether `needle` occurs at the start of `hay`
(character-by-character equality). -/
def charsMatchAt : List Char → List Char → Bool
  | [], _ => true
  | _ :: _, [] => false
  | a :: as, b :: bs => a = b && charsMatchAt as bs

/-- Test whether `needle` occurs contiguously somewhere in `hay`. -/
def strContainsAux (needle : List Char) : List Char → Bool
  | [] => needle.isEmpty
  | c :: rest => charsMatchAt needle (c :: rest) || strContainsAux needle rest

/-- JavaScript `hay.includes(needle)`: substring containment. -/
def strContains (hay needle : String) : Bool :=
  strContainsAux needle.toList hay.toList

/-- The fixed browser list of `isProductiveActivity` (database.js:526). -/
def browsers : List String :=
  ["Safari", "Google Chrome", "Firefox", "Chrome", "Edge", "Brave"]

/-- database.js `isProductiveActivity(appName, windowTitle, productiveApps,
productiveWebsites)`: false on a falsy `appName`; true when `appName`
substring-matches some productive app; otherwise, when `appName`
substring-matches a browser name, the verdict is whether a truthy
`windowTitle` substring-matches some productive website; otherwise false. -/
def isProductiveActivity (appName windowTitle : Option String)
    (productiveApps productiveWebsites : List String) : Bool :=
  if jsStrFalsy appName then false
  else
    let a := appName.getD ""
    if productiveApps.any (fun app => strContains a app) then true
    else if browsers.any (fun browser => strContains a browser) then
      if jsStrFalsy windowTitle then false
      else productiveWebsites.any (fun site => strContains (windowTitle.getD "") site)
    else false

/-- One `activity_log` row as read back by `getActivityForDate`
(database.js): a timestamp, nullable app name and window title, the AFK
flag and the nullable AFK transition type. -/
structure Activity where
  timestamp : Int
  app_name : Option String
  window_title : Option String
  is_afk : Bool
  afk_type : Option String
deriving Repr, DecidableEq

/-- A reconstructed work session `{start, end, duration}` as pushed by
`calculateWorkTimeForDate` (database.js); `end` is a Lean keyword, so the
field is `endTime`. `duration` is the pushed `(end - start) / 1000`. -/
structure Session where
  start : Int
  endTime : Int
  duration : ℚ
deriving Repr, DecidableEq

/-- The JavaScript duration computation `(b - a) / 1000` in seconds,
written with `mkRat` so that concrete instances evaluate inside the
kernel; `durSec_def` restates it as the division. -/
def durSec (a b : Int) : ℚ := mkRat (b - a) 1000

/-- The mutable locals of the `calculateWorkTimeForDate` loop. -/
structure CalcState where
  totalWorkSeconds : ℚ
  isAfk : Bool
  lastTimestamp : Option Int
  lastWasProductive : Bool
  sessionStart : Option Int
  sessions : List Session
deriving Repr, DecidableEq

/-- The loop locals before the first iteration (database.js:431-436). -/
def initState : CalcState :=
  { totalWorkSeconds := 0, isAfk := false, lastTimestamp := none
    lastWasProductive := false, sessionStart := none, sessions := [] }

/-- Close the open session at `timestamp`, recording it only when its
duration is positive (the shared push pattern of database.js:446-451 and
database.js:472-477); `sessionStart` is cleared either way. -/
def closeSession (st : CalcState) (s timestamp : Int) : CalcState :=
  if 0 < durSec s timestamp then
    { st with sessions := st.sessions ++ [⟨s, timestamp, durSec s timestamp⟩]
              totalWorkSeconds := st.totalWorkSeconds + durSec s timestamp
              sessionStart := none }
  else { st with sessionStart := none }

/-- One iteration of the `for (const activity of activities)` loop of
`calculateWorkTimeForDate` (database.js:438-482). -/
def calcStep (productiveApps productiveWebsites : List String)
    (st : CalcState) (activity : Activity) : CalcState :=
  let timestamp := activity.timestamp
  if activity.is_afk then
    if activity.afk_type = some "start" then
      let st1 :=
        match st.sessionStart with
        | some s => if st.isAfk then st else closeSession st s timestamp
        | none => st
      { st1 with isAfk := true, lastTimestamp := some timestamp }
    else if activity.afk_type = some "end" then
      { st with isAfk := false, lastTimestamp := some timestamp }
    else
      { st with lastTimestamp := some timestamp }
  else if st.isAfk then st
  else
    let isProductive :=
      isProductiveActivity activity.app_name activity.window_title
        productiveApps productiveWebsites
    let st1 :=
      if isProductive then
        match st.sessionStart with
        | none => { st with sessionStart := some timestamp }
        | some _ => st
      else
        match st.sessionStart with
        | some s => closeSession st s timestamp
        | none => st
    { st1 with lastTimestamp := some timestamp, lastWasProductive := isProductive }

/-- The result record of `calculateWorkTimeForDate` (database.js:505-509). -/
structure CalcResult where
  totalWorkSeconds : ℚ
  sessions : List Session
  sessionsCount : Nat
deriving Repr, DecidableEq

/-- The post-loop handling of an ongoing session (database.js:484-503):
for today the session is closed at the wall clock `now`, for a past day at
the last observed timestamp. -/
def finishCalc (st : CalcState) (isToday : Bool) (now : Int) : CalcState :=
  match st.sessionStart with
  | some s =>
    if st.isAfk then st
    else if isToday then closeSession st s now
    else
      match st.lastTimestamp with
      | some lt => closeSession st s lt
      | none => st
  | none => st

/-- database.js `calculateWorkTimeForDate(date, productiveApps,
productiveWebsites)`, with the stored rows for the date, the
`date === todayStr` comparison and the wall clock passed explicitly.
Returns `none` on an empty day (database.js:429 `return null`). -/
def calculateWorkTimeForDate (activities : List Activity) (isToday : Bool)
    (now : Int) (productiveApps productiveWebsites : List String) :
    Option CalcResult :=
  if activities = [] then none
  else
    let st := activities.foldl (calcStep productiveApps productiveWebsites) initState
    let st' := finishCalc st isToday now
    some { totalWorkSeconds := st'.totalWorkSeconds
           sessions := st'.sessions
           sessionsCount := st'.sessions.length }

/-- Sum of the recorded session durations. -/
def sessionSum (sessions : List Session) : ℚ :=
  (sessions.map (fun s => s.duration)).sum

/-! ### workTracker.js: `analyzeWorkTime` and `createEmptyResult` -/

/-- JavaScript `Math.trunc`-style truncation of a rational (what `%`
composes with), used for the hour/minute/second breakdown. -/
def jsTrunc (q : ℚ) : Int := if 0 ≤ q then ⌊q⌋ else ⌈q⌉

/-- JavaScript `a % m` on numbers: remainder with the sign of the
dividend. -/
def jsMod (a m : ℚ) : ℚ := a - m * (jsTrunc (a / m) : ℚ)

/-- The `totalWorkTime` record of workTracker.js `analyzeWorkTime`. -/
structure TotalWorkTime where
  hours : Int
  minutes : Int
  seconds : Int
  totalSeconds : ℚ
deriving Repr, DecidableEq

/-- The analysis result of workTracker.js `analyzeWorkTime`; the derived
display strings (`formattedWorkTime`, `shortFormattedWorkTime`) are
presentation-only formatting of these same numbers and are not modelled. -/
structure AnalyzeResult where
  totalWorkTime : TotalWorkTime
  sessionsCount : Nat
  sessions : List Session
deriving Repr, DecidableEq

/-- workTracker.js `createEmptyResult(date)`: the zero-filled analysis
result returned when there is no data. -/
def createEmptyResult : AnalyzeResult :=
  { totalWorkTime := { hours := 0, minutes := 0, seconds := 0, totalSeconds := 0 }
    sessionsCount := 0
    sessions := [] }

/-- workTracker.js `analyzeWorkTime(logFilePath, targetDate)` on an
available database: delegates to `calculateWorkTimeForDate` and converts a
`null` result into `createEmptyResult`. -/
def analyzeWorkTime (activities : List Activity) (isToday : Bool) (now : Int)
    (productiveApps productiveWebsites : List String) : AnalyzeResult :=
  match calculateWorkTimeForDate activities isToday now productiveApps productiveWebsites with
  | none => createEmptyResult
  | some dbResult =>
    let t := dbResult.totalWorkSeconds
    { totalWorkTime :=
        { hours := ⌊t / 3600⌋
          minutes := ⌊jsMod t 3600 / 60⌋
          seconds := ⌊jsMod t 60⌋
          totalSeconds := t }
      sessionsCount := dbResult.sessionsCount
      sessions := dbResult.sessions }

/-! ### main.js: the `get-hourly-stats` walk and `addTimeToHours` -/

/-- The clock hour of a millisecond timestamp, with local time modelled as
UTC: JavaScript `date.getHours()`. -/
def jsGetHours (t : Int) : Nat := ((t.fdiv 3600000).emod 24).toNat

/-- JavaScript `Math.round(ms / 60000)`: round half toward positive
infinity, computed exactly on integers as `⌊ms/60000 + 1/2⌋`. -/
def roundMinutes (ms : Int) : Int := (2 * ms + 60000).fdiv 120000

/-- Add `v` to bucket `hour` of the 24-entry minute histogram: the
JavaScript `hourlyMinutes[hour] += v`. -/
def bumpHour (hourly : List Int) (hour : Nat) (v : Int) : List Int :=
  hourly.set hour (hourly.getD hour 0 + v)

/-- The body of main.js `addTimeToHours`, fuelled for structural
recursion; each loop iteration advances `current` to the next hour
boundary, so `(endT - current).toNat + 1` units of fuel (one per
millisecond) are always enough for the `while (current < end)` loop. -/
def addTimeToHoursAux : Nat → List Int → Int → Int → List Int
  | 0, hourly, _, _ => hourly
  | fuel + 1, hourly, current, endT =>
    if current < endT then
      let hour := jsGetHours current
      let endOfHour := current.fdiv 3600000 * 3600000 + 3599999
      let segmentEnd := if endOfHour < endT then endOfHour else endT
      let minutes := segmentEnd - current
      addTimeToHoursAux fuel (bumpHour hourly hour (roundMinutes minutes)) (endOfHour + 1) endT
    else hourly

/-- main.js `addTimeToHours(hourlyMinutes, start, end)`: distribute the
interval `[start, end)` over the 24 hour buckets, rounding the overlap
with each hour to whole minutes independently. -/
def addTimeToHours (hourly : List Int) (start endT : Int) : List Int :=
  addTimeToHoursAux ((endT - start).toNat + 1) hourly start endT

/-- The mutable locals of the `get-hourly-stats` walk (main.js:180-181). -/
structure HourState where
  isAfk : Bool
  sessionStart : Option Int
  hourly : List Int
deriving Repr, DecidableEq

/-- One iteration of the `get-hourly-stats` event loop (main.js:183-214).
Note the contrast with `calcStep`: on `AfkStart` the open interval is fed
to `addTimeToHours` and `sessionStart` is cleared unconditionally, and the
walk keeps no `lastTimestamp`. -/
def hourlyStep (productiveApps productiveWebsites : List String)
    (st : HourState) (activity : Activity) : HourState :=
  let timestamp := activity.timestamp
  if activity.is_afk then
    if activity.afk_type = some "start" then
      let h :=
        match st.sessionStart with
        | some s => if st.isAfk then st.hourly else addTimeToHours st.hourly s timestamp
        | none => st.hourly
      { isAfk := true, sessionStart := none, hourly := h }
    else if activity.afk_type = some "end" then
      { st with isAfk := false }
    else st
  else if st.isAfk then st
  else
    let isProductive :=
      isProductiveActivity activity.app_name activity.window_title
        productiveApps productiveWebsites
    if isProductive then
      match st.sessionStart with
      | none => { st with sessionStart := some timestamp }
      | some _ => st
    else
      match st.sessionStart with
      | some s => { st with hourly := addTimeToHours st.hourly s timestamp, sessionStart := none }
      | none => st

/-- The all-zero 24-hour minute histogram. -/
def zeroHours : List Int := List.replicate 24 0

/-- The `get-hourly-stats` IPC handler (main.js:166-226): walk the events
of the day and, for an ongoing session when the queried date is today, add
the open interval up to the wall clock; the trailing open session of a
past day is not added. -/
def getHourlyStats (activities : List Activity) (isToday : Bool) (now : Int)
    (productiveApps productiveWebsites : List String) : List Int :=
  if activities = [] then zeroHours
  else
    let st := activities.foldl (hourlyStep productiveApps productiveWebsites)
      { isAfk := false, sessionStart := none, hourly := zeroHours }
    match st.sessionStart with
    | some s => if !st.isAfk && isToday then addTimeToHours st.hourly s now else st.hourly
    | none => st.hourly

/-- The hourly histogram computed from reconstructed sessions instead of
by re-walking the event stream: feed every session interval to
`addTimeToHours` (the "equivalently" reading of the specification). -/
def hourlyFromSessions (sessions : List Session) : List Int :=
  sessions.foldl (fun h s => addTimeToHours h s.start s.endTime) zeroHours

/-- The session list of a `calculateWorkTimeForDate` result, empty when
the result is `null`. -/
def sessionsOf : Option CalcResult → List Session
  | none => []
  | some r => r.sessions

/-! ### main.js: `calculateStreak`; database.js: `daily_summary` rows -/

/-- One `daily_summary` row (database.js:83-95); every non-key column is
nullable in the schema. -/
structure SummaryRow where
  total_work_seconds : Option Int
  goal_seconds : Option Int
  sessions_count : Option Int
  productive_seconds : Option Int
  projects_json : Option String
deriving Repr, DecidableEq

/-- The `while (true)` loop of main.js `calculateStreak`, fuelled for
structural recursion: each iteration increments `streak` and the loop
breaks as soon as `streak > 365`, so the top-level fuel of 367 is never
exhausted. `summaries` is `db.getDailySummary` keyed by day number, and
walking to the previous calendar day is `date - 1`. -/
def streakLoop (summaries : Int → Option SummaryRow) (goalSeconds : Int) :
    Nat → Int → Nat → Nat
  | 0, _, streak => streak
  | fuel + 1, date, streak =>
    match summaries date with
    | some summary =>
      if goalSeconds ≤ (summary.total_work_seconds.getD 0) then
        let streak' := streak + 1
        if 365 < streak' then streak'
        else streakLoop summaries goalSeconds fuel (date - 1) streak'
      else streak
    | none => streak

/-- main.js `calculateStreak()`: walk backward from today while a stored
summary exists whose `total_work_seconds` (null coerced to 0) reaches the
goal derived from the current configuration, `dailyGoalMinutes * 60`. -/
def calculateStreak (summaries : Int → Option SummaryRow)
    (dailyGoalMinutes : Int) (today : Int) : Nat :=
  streakLoop summaries (dailyGoalMinutes * 60) 367 today 0

/-! ### database.js: `updateDailySummary` -/

/-- database.js `updateDailySummary(date, totalWorkSeconds, goalSeconds,
sessionsCount, productiveSeconds = null, projectsJson = null)`: the
`INSERT ... ON CONFLICT(date) DO UPDATE` upsert on the `daily_summary`
table (a map from date to at most one row). `COALESCE(excluded.x, x)`
keeps the old `productive_seconds`/`projects_json` when the new write
passes null. -/
def updateDailySummary (table : String → Option SummaryRow) (date : String)
    (totalWorkSeconds : Int) (goalSeconds : Int) (sessionsCount : Int)
    (productiveSeconds : Option Int := none) (projectsJson : Option String := none) :
    String → Option SummaryRow :=
  fun d =>
    if d = date then
      match table date with
      | none =>
        some { total_work_seconds := some totalWorkSeconds
               goal_seconds := some goalSeconds
               sessions_count := some sessionsCount
               productive_seconds := productiveSeconds
               projects_json := projectsJson }
      | some old =>
        some { total_work_seconds := some totalWorkSeconds
               goal_seconds := some goalSeconds
               sessions_count := some sessionsCount
               productive_seconds := productiveSeconds <|> old.productive_seconds
               projects_json := projectsJson <|> old.projects_json }
    else table d

/-! ### projects.js: `detectProject` and `detectFromPatterns`

The four window-title heuristics are JavaScript regular expressions; each
is embedded as a dedicated matcher with the leftmost-match, greedy,
backtracking semantics of that concrete pattern. Character classes follow
JavaScript: `\w` is `[A-Za-z0-9_]`, `\s` is modelled by the common ASCII
whitespace characters, `[A-Z]` and `\d` are the ASCII ranges. -/

/-- Membership in the regex class `\s` (and the character set stripped by
`String.prototype.trim`), restricted to the ASCII whitespace characters. -/
def jsSpace (c : Char) : Bool :=
  c = ' ' || c = '\t' || c = '\n' || c = '\r' || c = '\x0b' || c = '\x0c'

/-- Drop a maximal run of whitespace: a committed greedy `\s*` whose
successor cannot match whitespace. -/
def dropSpaces (cs : List Char) : List Char := cs.dropWhile jsSpace

/-- JavaScript `String.prototype.trim()` on a character list. -/
def jsTrim (cs : List Char) : List Char :=
  ((cs.dropWhile jsSpace).reverse.dropWhile jsSpace).reverse

/-- Case-insensitive `charsMatchAt` (regex `/i` flag, ASCII folding). -/
def caselessMatchAt : List Char → List Char → Bool
  | [], _ => true
  | _ :: _, [] => false
  | a :: as, b :: bs => a.toLower = b.toLower && caselessMatchAt as bs

/-- Membership in the regex class `\w`. -/
def wordChar (c : Char) : Bool := c.isAlphanum || c = '_'

/-- Membership in the class `[\w.-]` (a path segment character). -/
def segChar (c : Char) : Bool := wordChar c || c = '.' || c = '-'

/-- Membership in the class `[^/\s]` (the path-pattern capture group). -/
def pathGroupChar (c : Char) : Bool := !(c = '/') && !(jsSpace c)

/-- Membership in the class `[^/\s-]` (the hosting-pattern capture group). -/
def ghGroupChar (c : Char) : Bool := !(c = '/') && !(jsSpace c) && !(c = '-')

/-- Membership in `[A-Z]`. -/
def upperChar (c : Char) : Bool := 'A' ≤ c && c ≤ 'Z'

/-- Continuation of the editor-title regex after the capture group:
`\s*[-—]\s*Visual Studio Code` matched as a prefix (both `\s*` are
committed because their successors are not whitespace; the literal is
matched case-insensitively under `/i`). -/
def vscRestMatches (r : List Char) : Bool :=
  match dropSpaces r with
  | d :: r2 =>
    (d = '-' || d = '—') &&
      caselessMatchAt "Visual Studio Code".toList (dropSpaces r2)
  | [] => false

/-- projects.js:54 `windowTitle.match(/^([^-]+)\s*[-—]\s*Visual
Studio Code/i)`, returning capture group 1. The group `([^-]+)` is greedy
with backtracking: the longest nonempty hyphen-free prefix whose remainder
matches the rest of the pattern wins. -/
def matchVSCode (cs : List Char) : Option (List Char) :=
  let maxk := (cs.takeWhile (fun c => !(c = '-'))).length
  (List.range maxk).findSome? (fun i =>
    let k := maxk - i
    if vscRestMatches (cs.drop k) then some (cs.take k) else none)

/-- The acceptance filter projects.js:56-60: trim the captured group and
return it only when it is nonempty, contains no dot and is shorter than 50
characters; otherwise the detection falls through to the next pattern. -/
def vsCodeAccepted (cs : List Char) : Option (List Char) :=
  match matchVSCode cs with
  | some g =>
    let folderName := jsTrim g
    if !folderName.isEmpty && !(folderName.contains '.') && folderName.length < 50
    then some folderName else none
  | none => none

/-- Remainders reachable by iterating the starred group `(?:\/[\w.-]+)*`
zero or more times, in iteration order; fuelled for structural recursion
(each iteration consumes at least two characters, so fuel
`length + 1` is always enough). -/
def starExpand : Nat → List Char → List (List Char)
  | 0, _ => []
  | fuel + 1, cs =>
    cs :: (match cs with
      | '/' :: rest =>
        let seg := rest.takeWhile segChar
        if seg.isEmpty then [] else starExpand fuel (rest.drop seg.length)
      | _ => [])

/-- projects.js:65 `/(?:~|\/\w+)(?:\/[\w.-]+)*\/([^/\s]+)/` anchored at
the head of `cs`, returning capture group 1. The greedy star prefers the
most iterations, giving segments back until a final `\/([^/\s]+)` can
match; the one-character classes make every `+` committed. -/
def matchPathAt (cs : List Char) : Option (List Char) :=
  let init : Option (List Char) :=
    match cs with
    | '~' :: rest => some rest
    | '/' :: rest =>
      let w := rest.takeWhile wordChar
      if w.isEmpty then none else some (rest.drop w.length)
    | _ => none
  match init with
  | none => none
  | some r0 =>
    ((starExpand (r0.length + 1) r0).reverse).findSome? (fun rj =>
      match rj with
      | '/' :: rest =>
        let g := rest.takeWhile pathGroupChar
        if g.isEmpty then none else some g
      | _ => none)

/-- projects.js:71 `/(?:GitHub|GitLab|Bitbucket)\s*[-:]\s*[\w-]+\/([^/\s-]+)/i`
anchored at the head of `cs`, returning capture group 1. -/
def matchGithubAt (cs : List Char) : Option (List Char) :=
  match (["GitHub", "GitLab", "Bitbucket"].findSome? (fun svc =>
      if caselessMatchAt svc.toList cs then some (cs.drop svc.length) else none)) with
  | none => none
  | some r1 =>
    match dropSpaces r1 with
    | d :: r2 =>
      if d = '-' || d = ':' then
        let r3 := dropSpaces r2
        let w := r3.takeWhile (fun c => wordChar c || c = '-')
        if w.isEmpty then none
        else
          match r3.drop w.length with
          | '/' :: r4 =>
            let g := r4.takeWhile ghGroupChar
            if g.isEmpty then none else some g
          | _ => none
      else none
    | [] => none

/-- projects.js:77 `/\[?([A-Z]+-\d+)\]?/` anchored at the head of `cs`,
returning `prefix = group.split('-')[0]`, i.e. the `[A-Z]+` run
(projects.js:80). The optional `\[?` commits to a leading bracket when one
is present, since the group cannot start with `[`. -/
def matchTicketAt (cs : List Char) : Option (List Char) :=
  let core : List Char → Option (List Char) := fun s =>
    let A := s.takeWhile upperChar
    if A.isEmpty then none
    else
      match s.drop A.length with
      | '-' :: r =>
        let D := r.takeWhile Char.isDigit
        if D.isEmpty then none else some A
      | _ => none
  match cs with
  | '[' :: rest => core rest
  | _ => core cs

/-- Leftmost unanchored matching: try the anchored matcher at every start
position in order. -/
def scanMatch (f : List Char → Option (List Char)) : List Char → Option (List Char)
  | [] => f []
  | c :: rest =>
    match f (c :: rest) with
    | some g => some g
    | none => scanMatch f rest

/-- projects.js `detectFromPatterns(windowTitle, appName)`: the fixed
priority cascade editor-title, filesystem path, hosting service, ticket
prefix, falling back to the sentinel. (`appName` is accepted but unused by
the source function; the local lowercased `title` on projects.js:50 is
dead.) -/
def detectFromPatterns (windowTitle appName : Option String) : String :=
  if jsStrFalsy windowTitle then "Uncategorized"
  else
    let cs := (windowTitle.getD "").toList
    match vsCodeAccepted cs with
    | some folderName => ⟨folderName⟩
    | none =>
      match scanMatch matchPathAt cs with
      | some g => ⟨g⟩
      | none =>
        match scanMatch matchGithubAt cs with
        | some g => ⟨g⟩
        | none =>
          match scanMatch matchTicketAt cs with
          | some pre => ⟨pre⟩
          | none => "Uncategorized"

/-- Lowercase a string: JavaScript `toLowerCase()` under ASCII folding. -/
def toLowerStr (s : String) : String := ⟨s.toList.map Char.toLower⟩

/-- The search string of projects.js:29:
`` `${windowTitle || ''} ${appName || ''}`.toLowerCase() ``. -/
def searchTextOf (windowTitle appName : Option String) : String :=
  toLowerStr ((windowTitle.getD "") ++ " " ++ (appName.getD ""))

/-- Whether some keyword of a configured project entry occurs (lowercased)
in the search text: the inner loop of projects.js:35-39. -/
def keywordHit (searchText : String) (p : String × List String) : Bool :=
  p.2.any (fun k => strContains searchText (toLowerStr k))

/-- projects.js `detectProject(windowTitle, appName)`. The keyword map is
passed as an association list in `Object.entries` insertion order; the
source skips malformed non-array entries, which a well-typed map cannot
express. First matching project wins; with no keyword match the pattern
cascade decides. -/
def detectProject (keywords : List (String × List String))
    (windowTitle appName : Option String) : String :=
  if jsStrFalsy windowTitle && jsStrFalsy appName then "Uncategorized"
  else
    let searchText := searchTextOf windowTitle appName
    match keywords.findSome? (fun p => if keywordHit searchText p then some p.1 else none) with
    | some name => name
    | none => detectFromPatterns windowTitle appName

/-! ## Helper lemmas -/

theorem durSec_def (a b : Int) : durSec a b = ((b - a : Int) : ℚ) / 1000 := by
  rw [durSec, Rat.mkRat_eq_div]
  norm_num

theorem durSec_pos {a b : Int} : 0 < durSec a b ↔ a < b := by
  rw [durSec_def, lt_div_iff₀ (by norm_num : (0:ℚ) < 1000), zero_mul]
  rw [show ((b - a : Int) : ℚ) = ((b : ℚ) - (a : ℚ)) by push_cast; ring]
  rw [sub_pos]
  exact_mod_cast Iff.rfl

theorem sessionSum_append (l : List Session) (s : Session) :
    sessionSum (l ++ [s]) = sessionSum l + s.duration := by
  simp [sessionSum]

theorem addTimeToHours_of_le {h : List Int} {s t : Int} (hle : t ≤ s) :
    addTimeToHours h s t = h := by
  have : (t - s).toNat + 1 = 0 + 1 := by omega
  rw [addTimeToHours, this]
  simp [addTimeToHoursAux, Int.not_lt.mpr hle]

/-! ## C3: the productivity classifier -/

/-- C3: the classifier returns false when `appName` is absent (null,
undefined or empty: the `!appName` test of database.js:518); returns true
when `appName` contains an entry of `productiveApps`; otherwise, when
`appName` contains one of the six recognized browser names, it returns
true iff `windowTitle` is present and contains an entry of
`productiveWebsites` (false when `windowTitle` is absent); and in every
other case it returns false. -/
theorem isProductiveActivity_spec (appName windowTitle : Option String)
    (productiveApps productiveWebsites : List String) :
    (jsStrFalsy appName = true →
      isProductiveActivity appName windowTitle productiveApps productiveWebsites = false)
    ∧ (jsStrFalsy appName = false →
        productiveApps.any (fun app => strContains (appName.getD "") app) = true →
        isProductiveActivity appName windowTitle productiveApps productiveWebsites = true)
    ∧ (jsStrFalsy appName = false →
        productiveApps.any (fun app => strContains (appName.getD "") app) = false →
        browsers.any (fun browser => strContains (appName.getD "") browser) = true →
        isProductiveActivity appName windowTitle productiveApps productiveWebsites =
          (!jsStrFalsy windowTitle &&
            productiveWebsites.any (fun site => strContains (windowTitle.getD "") site)))
    ∧ (jsStrFalsy appName = false →
        productiveApps.any (fun app => strContains (appName.getD "") app) = false →
        browsers.any (fun browser => strContains (appName.getD "") browser) = false →
        isProductiveActivity appName windowTitle productiveApps productiveWebsites = false) := by
  refine ⟨fun h => ?_, fun h hm => ?_, fun h hm hb => ?_, fun h hm hb => ?_⟩
  · simp [isProductiveActivity, h]
  · simp [isProductiveActivity, h, hm]
  · simp only [isProductiveActivity, h, hm, hb, Bool.false_eq_true, if_false, if_true]
    cases hw : jsStrFalsy windowTitle <;> simp
  · simp [isProductiveActivity, h, hm, hb]

/-- Witness for C3: a browser with a productive site in the title is
classified productive. -/
theorem isProductiveActivity_spec_witness :
    jsStrFalsy (some "Google Chrome") = false
    ∧ isProductiveActivity (some "Google Chrome") (some "github.com - pulls")
        ["VSCode"] ["github"] = true := by
  refine ⟨by decide, ?_⟩
  have h := (isProductiveActivity_spec (some "Google Chrome") (some "github.com - pulls")
    ["VSCode"] ["github"]).2.2.1 (by decide) (by decide) (by decide)
  rw [h]; decide

/-! ## C5: empty day -/

/-- C5: on an empty event list `calculateWorkTimeForDate` returns `null`,
and the work-time analysis (workTracker.js `analyzeWorkTime`) converts
that into the zero-filled `createEmptyResult`, with zero total work, zero
sessions count and an empty session list, rather than an error or an
absent value. -/
theorem analyzeWorkTime_empty (isToday : Bool) (now : Int)
    (productiveApps productiveWebsites : List String) :
    calculateWorkTimeForDate [] isToday now productiveApps productiveWebsites = none
    ∧ analyzeWorkTime [] isToday now productiveApps productiveWebsites = createEmptyResult
    ∧ createEmptyResult.totalWorkTime.totalSeconds = 0
    ∧ createEmptyResult.sessionsCount = 0
    ∧ createEmptyResult.sessions = [] := by
  refine ⟨rfl, ?_, rfl, rfl, rfl⟩
  simp [analyzeWorkTime, calculateWorkTimeForDate]

/-! ## C4: non-negativity and sum invariants -/

/-- The loop invariant of `calculateWorkTimeForDate`: the accumulated
total is exactly the sum of the recorded sessions, and every recorded
session has positive duration. -/
def CalcInv (st : CalcState) : Prop :=
  st.totalWorkSeconds = sessionSum st.sessions ∧ ∀ s ∈ st.sessions, 0 < s.duration

theorem calcInv_init : CalcInv initState := by
  constructor <;> simp [initState, sessionSum]

theorem calcInv_closeSession {st : CalcState} (h : CalcInv st) (s t : Int) :
    CalcInv (closeSession st s t) := by
  obtain ⟨hsum, hpos⟩ := h
  unfold closeSession
  split
  · constructor
    · simpa [sessionSum_append] using congrArg (· + durSec s t) hsum
    · intro x hx
      rcases List.mem_append.mp hx with hx | hx
      · exact hpos x hx
      · simp at hx; subst hx; assumption
  · exact ⟨hsum, hpos⟩

theorem calcInv_calcStep {st : CalcState} (h : CalcInv st)
    (productiveApps productiveWebsites : List String) (a : Activity) :
    CalcInv (calcStep productiveApps productiveWebsites st a) := by
  unfold calcStep
  split
  · split
    · have h1 : CalcInv (match st.sessionStart with
          | some s => if st.isAfk then st else closeSession st s a.timestamp
          | none => st) := by
        rcases st.sessionStart with _ | s
        · exact h
        · dsimp only
          split
          · exact h
          · exact calcInv_closeSession h _ _
      exact h1
    · split
      · exact h
      · exact h
  · split
    · exact h
    · have h1 : CalcInv (if isProductiveActivity a.app_name a.window_title
            productiveApps productiveWebsites = true then
          match st.sessionStart with
          | none => { st with sessionStart := some a.timestamp }
          | some _ => st
        else
          match st.sessionStart with
          | some s => closeSession st s a.timestamp
          | none => st) := by
        split
        · rcases st.sessionStart with _ | s
          · exact h
          · exact h
        · rcases st.sessionStart with _ | s
          · exact h
          · exact calcInv_closeSession h _ _
      exact h1

theorem calcInv_foldl (productiveApps productiveWebsites : List String)
    (activities : List Activity) {st : CalcState} (h : CalcInv st) :
    CalcInv (activities.foldl (calcStep productiveApps productiveWebsites) st) := by
  induction activities generalizing st with
  | nil => exact h
  | cons a rest ih =>
    exact ih (calcInv_calcStep h productiveApps productiveWebsites a)

theorem calcInv_finishCalc {st : CalcState} (h : CalcInv st)
    (isToday : Bool) (now : Int) : CalcInv (finishCalc st isToday now) := by
  unfold finishCalc
  split
  · split
    · exact h
    · split
      · exact calcInv_closeSession h _ _
      · split
        · exact calcInv_closeSession h _ _
        · exact h
  · exact h

/-- C4: for every event stream the reconstruction result has
`totalWorkSeconds ≥ 0`, every recorded session has positive duration, and
`totalWorkSeconds` is exactly the sum of the recorded session durations
(sessions whose computed duration is not positive are never recorded and
never counted). -/
theorem calculateWorkTimeForDate_invariants (activities : List Activity)
    (isToday : Bool) (now : Int) (productiveApps productiveWebsites : List String)
    (r : CalcResult)
    (hr : calculateWorkTimeForDate activities isToday now productiveApps productiveWebsites
      = some r) :
    0 ≤ r.totalWorkSeconds
    ∧ (∀ s ∈ r.sessions, 0 < s.duration)
    ∧ r.totalWorkSeconds = sessionSum r.sessions := by
  unfold calculateWorkTimeForDate at hr
  split at hr
  · exact absurd hr (by simp)
  · have hinv : CalcInv (finishCalc
        (activities.foldl (calcStep productiveApps productiveWebsites) initState)
        isToday now) :=
      calcInv_finishCalc (calcInv_foldl _ _ _ calcInv_init) isToday now
    obtain ⟨hsum, hpos⟩ := hinv
    obtain rfl : r = _ := (Option.some_inj.mp hr).symm
    refine ⟨?_, hpos, hsum⟩
    rw [hsum]
    apply List.sum_nonneg
    intro x hx
    simp only [List.mem_map] at hx
    obtain ⟨s, hs, rfl⟩ := hx
    exact le_of_lt (hpos s hs)

/-- Witness for C4 at the AFK-split scenario event list. -/
theorem calculateWorkTimeForDate_invariants_witness :
    calculateWorkTimeForDate
      [⟨34200000, some "VSCode", some "w", false, none⟩,
       ⟨36000000, none, none, true, some "start"⟩,
       ⟨37800000, none, none, true, some "end"⟩,
       ⟨39600000, some "VSCode", some "w", false, none⟩] true 43200000 ["VSCode"] []
      = some ⟨durSec 34200000 36000000 + durSec 39600000 43200000,
              [⟨34200000, 36000000, durSec 34200000 36000000⟩,
               ⟨39600000, 43200000, durSec 39600000 43200000⟩], 2⟩
    ∧ 0 ≤ durSec 34200000 36000000 + durSec 39600000 43200000
    ∧ (∀ s ∈ [Session.mk 34200000 36000000 (durSec 34200000 36000000),
              Session.mk 39600000 43200000 (durSec 39600000 43200000)], 0 < s.duration)
    ∧ durSec 34200000 36000000 + durSec 39600000 43200000
        = sessionSum [⟨34200000, 36000000, durSec 34200000 36000000⟩,
                      ⟨39600000, 43200000, durSec 39600000 43200000⟩] := by
  have hcalc : calculateWorkTimeForDate
      [⟨34200000, some "VSCode", some "w", false, none⟩,
       ⟨36000000, none, none, true, some "start"⟩,
       ⟨37800000, none, none, true, some "end"⟩,
       ⟨39600000, some "VSCode", some "w", false, none⟩] true 43200000 ["VSCode"] []
      = some ⟨durSec 34200000 36000000 + durSec 39600000 43200000,
              [⟨34200000, 36000000, durSec 34200000 36000000⟩,
               ⟨39600000, 43200000, durSec 39600000 43200000⟩], 2⟩ := by
    simp [calculateWorkTimeForDate, calcStep, closeSession, finishCalc, initState,
          isProductiveActivity, jsStrFalsy, strContains, strContainsAux, charsMatchAt,
          browsers, durSec_pos]
  have h := calculateWorkTimeForDate_invariants _ true 43200000 ["VSCode"] [] _ hcalc
  exact ⟨hcalc, h.1, h.2.1, h.2.2⟩

/-! ## C2: a day of uninterrupted productive activity -/

theorem durSec_refl (a : Int) : durSec a a = 0 := by
  rw [durSec_def]
  simp

theorem calcStep_productive (apps sites : List String) (st : CalcState)
    (a : Activity) (s : Int) (hafk : st.isAfk = false)
    (hss : st.sessionStart = some s) (ha : a.is_afk = false)
    (hp : isProductiveActivity a.app_name a.window_title apps sites = true) :
    calcStep apps sites st a =
      { st with lastTimestamp := some a.timestamp, lastWasProductive := true } := by
  simp [calcStep, ha, hafk, hp, hss]

theorem foldl_productive_run (apps sites : List String) (acts : List Activity)
    (st : CalcState) (s : Int) (hafk : st.isAfk = false)
    (hss : st.sessionStart = some s)
    (hrun : ∀ e ∈ acts, e.is_afk = false ∧
      isProductiveActivity e.app_name e.window_title apps sites = true) :
    acts.foldl (calcStep apps sites) st =
      (match acts.getLast? with
       | some e => { st with lastTimestamp := some e.timestamp, lastWasProductive := true }
       | none => st) := by
  induction acts generalizing st with
  | nil => rfl
  | cons a rest ih =>
    rw [List.foldl_cons,
      calcStep_productive apps sites st a s hafk hss
        (hrun a (List.mem_cons_self a rest)).1 (hrun a (List.mem_cons_self a rest)).2]
    rw [ih { st with lastTimestamp := some a.timestamp, lastWasProductive := true }
      hafk hss (fun e he => hrun e (List.mem_cons_of_mem a he))]
    cases rest with
    | nil => rfl
    | cons b t =>
      rw [List.getLast?_cons_cons]
      cases hgl : (b :: t).getLast? with
      | none => simp at hgl
      | some e => rfl

theorem closeSession_totalWorkSeconds (st : CalcState) (s t : Int) :
    (closeSession st s t).totalWorkSeconds =
      if 0 < durSec s t then st.totalWorkSeconds + durSec s t
      else st.totalWorkSeconds := by
  unfold closeSession
  split <;> rfl

theorem closeSession_sessions (st : CalcState) (s t : Int) :
    (closeSession st s t).sessions =
      if 0 < durSec s t then st.sessions ++ [⟨s, t, durSec s t⟩]
      else st.sessions := by
  unfold closeSession
  split <;> rfl

theorem closeSession_sessionStart (st : CalcState) (s t : Int) :
    (closeSession st s t).sessionStart = none := by
  unfold closeSession
  split <;> rfl

theorem closeSession_isAfk (st : CalcState) (s t : Int) :
    (closeSession st s t).isAfk = st.isAfk := by
  unfold closeSession
  split <;> rfl

theorem chain_le_getLastD (a : Activity) (rest : List Activity)
    (h : List.Chain' (fun x y => x.timestamp ≤ y.timestamp) (a :: rest)) :
    a.timestamp ≤ (rest.map Activity.timestamp).getLastD a.timestamp := by
  induction rest generalizing a with
  | nil => simp
  | cons b t ih =>
    have hab : a.timestamp ≤ b.timestamp := (List.chain'_cons.mp h).1
    have ht := (List.chain'_cons.mp h).2
    rw [List.map_cons, List.getLastD_cons]
    exact le_trans hab (ih b ht)

theorem foldl_productive_run_fields (apps sites : List String)
    (acts : List Activity) (st : CalcState) (s d : Int)
    (hafk : st.isAfk = false) (hss : st.sessionStart = some s)
    (hlt : st.lastTimestamp = some d)
    (hrun : ∀ e ∈ acts, e.is_afk = false ∧
      isProductiveActivity e.app_name e.window_title apps sites = true) :
    (acts.foldl (calcStep apps sites) st).totalWorkSeconds = st.totalWorkSeconds
    ∧ (acts.foldl (calcStep apps sites) st).sessions = st.sessions
    ∧ (acts.foldl (calcStep apps sites) st).isAfk = false
    ∧ (acts.foldl (calcStep apps sites) st).sessionStart = some s
    ∧ (acts.foldl (calcStep apps sites) st).lastTimestamp =
        some ((acts.map Activity.timestamp).getLastD d) := by
  rw [foldl_productive_run apps sites acts st s hafk hss hrun]
  cases hgl : acts.getLast? with
  | none =>
    have hnil : acts = [] := List.getLast?_eq_none_iff.mp hgl
    subst hnil
    exact ⟨rfl, rfl, hafk, hss, by simpa using hlt⟩
  | some e =>
    have hmap : (acts.map Activity.timestamp).getLastD d = e.timestamp := by
      rw [List.getLastD_eq_getLast?, List.getLast?_map, hgl]
      rfl
    exact ⟨rfl, rfl, hafk, hss, by rw [hmap]⟩

/-- C2: for a nonempty single-day stream with no AFK events whose activity
events are all productive, `totalWorkSeconds` is exactly the elapsed time
in seconds between the first event and the last event, or between the
first event and the wall-clock evaluation instant when the queried date is
today. -/
theorem calcWorkTime_allProductive (a : Activity) (rest : List Activity)
    (isToday : Bool) (now : Int) (apps sites : List String)
    (hchain : List.Chain' (fun x y => x.timestamp ≤ y.timestamp) (a :: rest))
    (hrun : ∀ e ∈ a :: rest, e.is_afk = false ∧
      isProductiveActivity e.app_name e.window_title apps sites = true)
    (hnow : isToday = true → a.timestamp ≤ now) :
    (calculateWorkTimeForDate (a :: rest) isToday now apps sites).map
        (fun r => r.totalWorkSeconds)
      = some (durSec a.timestamp
          (if isToday then now else (rest.map Activity.timestamp).getLastD a.timestamp)) := by
  have hstep : calcStep apps sites initState a =
      { initState with sessionStart := some a.timestamp,
                       lastTimestamp := some a.timestamp, lastWasProductive := true } := by
    simp [calcStep, initState, (hrun a (List.mem_cons_self a rest)).1,
      (hrun a (List.mem_cons_self a rest)).2]
  obtain ⟨htot, hsess, hafk2, hss2, hlt2⟩ := foldl_productive_run_fields apps sites rest
    { initState with sessionStart := some a.timestamp,
                     lastTimestamp := some a.timestamp, lastWasProductive := true }
    a.timestamp a.timestamp rfl rfl rfl
    (fun e he => hrun e (List.mem_cons_of_mem a he))
  have hcalc : calculateWorkTimeForDate (a :: rest) isToday now apps sites =
      some { totalWorkSeconds := (finishCalc ((a :: rest).foldl (calcStep apps sites) initState) isToday now).totalWorkSeconds
             sessions := (finishCalc ((a :: rest).foldl (calcStep apps sites) initState) isToday now).sessions
             sessionsCount := (finishCalc ((a :: rest).foldl (calcStep apps sites) initState) isToday now).sessions.length } := by
    simp [calculateWorkTimeForDate]
  rw [hcalc, Option.map_some']
  congr 1
  rw [List.foldl_cons, hstep] at *
  set M := rest.foldl (calcStep apps sites)
      { initState with sessionStart := some a.timestamp,
                       lastTimestamp := some a.timestamp, lastWasProductive := true }
    with hM
  have hfin : finishCalc M isToday now =
      (if isToday then closeSession M a.timestamp now
       else closeSession M a.timestamp ((rest.map Activity.timestamp).getLastD a.timestamp)) := by
    unfold finishCalc
    rw [hss2, hafk2, hlt2]
    cases isToday <;> simp
  rw [hfin]
  have htotM : M.totalWorkSeconds = 0 := by rw [htot]; rfl
  cases isToday with
  | true =>
    rw [if_pos rfl, if_pos rfl, closeSession_totalWorkSeconds, htotM]
    by_cases hlt : 0 < durSec a.timestamp now
    · rw [if_pos hlt, zero_add]
    · rw [if_neg hlt]
      have hle : now ≤ a.timestamp := by
        by_contra hc
        exact hlt (durSec_pos.mpr (lt_of_not_ge hc))
      have heq : now = a.timestamp := le_antisymm hle (hnow rfl)
      rw [heq, durSec_refl]
  | false =>
    rw [if_neg (by simp), if_neg (by simp), closeSession_totalWorkSeconds, htotM]
    have hle : a.timestamp ≤ (rest.map Activity.timestamp).getLastD a.timestamp :=
      chain_le_getLastD a rest hchain
    by_cases hlt : 0 < durSec a.timestamp ((rest.map Activity.timestamp).getLastD a.timestamp)
    · rw [if_pos hlt, zero_add]
    · rw [if_neg hlt]
      have heq : (rest.map Activity.timestamp).getLastD a.timestamp = a.timestamp := by
        have h2 : ¬ a.timestamp < (rest.map Activity.timestamp).getLastD a.timestamp :=
          fun hc => hlt (durSec_pos.mpr hc)
        omega
      rw [heq, durSec_refl]

/-- Witness for C2: two productive samples on a past day give a total
equal to the time between the first and last sample. -/
theorem calcWorkTime_allProductive_witness :
    (calculateWorkTimeForDate
      [⟨34200000, some "VSCode", some "w", false, none⟩,
       ⟨36000000, some "VSCode", some "w", false, none⟩] false 0 ["VSCode"] []).map
        (fun r => r.totalWorkSeconds) = some (durSec 34200000 36000000) := by
  have h := calcWorkTime_allProductive ⟨34200000, some "VSCode", some "w", false, none⟩
    [⟨36000000, some "VSCode", some "w", false, none⟩] false 0 ["VSCode"] []
    (by simp [List.chain'_cons]) (by decide) (by simp)
  simpa using h

/-! ## C1: inserting an AFK pair inside a productive run -/

/-- Counterexample to C1 as stated: in the scenario (productive samples at
09:30 and 11:00, `AfkStart@10:00` / `AfkEnd@10:30`, queried live at
12:00), the split sessions sum to the original total minus 60 minutes, not
minus the 30-minute AFK gap: time is excluded from `AfkStart` until the
next productive sample, not until `AfkEnd`. -/
theorem afkSplit_counterexample :
    (calculateWorkTimeForDate
      [⟨34200000, some "VSCode", some "w", false, none⟩,
       ⟨36000000, none, none, true, some "start"⟩,
       ⟨37800000, none, none, true, some "end"⟩,
       ⟨39600000, some "VSCode", some "w", false, none⟩] true 43200000 ["VSCode"] []).map
        (fun r => r.totalWorkSeconds)
      = some (durSec 34200000 36000000 + durSec 39600000 43200000)
    ∧ (calculateWorkTimeForDate
      [⟨34200000, some "VSCode", some "w", false, none⟩,
       ⟨39600000, some "VSCode", some "w", false, none⟩] true 43200000 ["VSCode"] []).map
        (fun r => r.totalWorkSeconds)
      = some (durSec 34200000 43200000)
    ∧ durSec 34200000 36000000 + durSec 39600000 43200000
        ≠ durSec 34200000 43200000 - durSec 36000000 37800000 := by
  refine ⟨?_, ?_, ?_⟩
  · simp [calculateWorkTimeForDate, calcStep, closeSession, finishCalc, initState,
      isProductiveActivity, jsStrFalsy, strContains, strContainsAux, charsMatchAt,
      browsers, durSec_pos]
  · simp [calculateWorkTimeForDate, calcStep, closeSession, finishCalc, initState,
      isProductiveActivity, jsStrFalsy, strContains, strContainsAux, charsMatchAt,
      browsers, durSec_pos]
  · rw [durSec_def, durSec_def, durSec_def, durSec_def]
    norm_num

/-- C1 amended: inserting `AfkStart@a` / `AfkEnd@b` strictly between two
productive samples at `t1 < t2` on a live (today) query splits the single
session into two — the first closing at the `AfkStart` timestamp, the
second starting at the next productive sample `t2` — and the split
sessions sum to the original session total minus `durSec a t2`, the time
from `AfkStart` to the next productive sample (the AFK gap plus the
post-AFK lag), not merely the AFK gap. -/
theorem afkSplit_amended (t1 ta tb t2 now : Int) (app wt : Option String)
    (apps sites : List String)
    (hprod : isProductiveActivity app wt apps sites = true)
    (h1 : t1 < ta) (h2 : ta < tb) (h3 : tb < t2) (h4 : t2 < now) :
    calculateWorkTimeForDate
      [⟨t1, app, wt, false, none⟩, ⟨ta, none, none, true, some "start"⟩,
       ⟨tb, none, none, true, some "end"⟩, ⟨t2, app, wt, false, none⟩]
      true now apps sites
      = some ⟨durSec t1 ta + durSec t2 now,
              [⟨t1, ta, durSec t1 ta⟩, ⟨t2, now, durSec t2 now⟩], 2⟩
    ∧ calculateWorkTimeForDate [⟨t1, app, wt, false, none⟩, ⟨t2, app, wt, false, none⟩]
        true now apps sites
      = some ⟨durSec t1 now, [⟨t1, now, durSec t1 now⟩], 1⟩
    ∧ durSec t1 ta + durSec t2 now = durSec t1 now - durSec ta t2 := by
  have h14 : t1 < now := by omega
  refine ⟨?_, ?_, ?_⟩
  · simp [calculateWorkTimeForDate, calcStep, closeSession, finishCalc, initState,
      hprod, durSec_pos, h1, h4]
  · simp [calculateWorkTimeForDate, calcStep, closeSession, finishCalc, initState,
      hprod, durSec_pos, h14]
  · rw [durSec_def, durSec_def, durSec_def, durSec_def]
    push_cast
    ring

/-- Witness for the amended C1 at the concrete scenario instants. -/
theorem afkSplit_amended_witness :
    isProductiveActivity (some "VSCode") (some "w") ["VSCode"] [] = true
    ∧ (34200000 : Int) < 36000000 ∧ (36000000 : Int) < 37800000
    ∧ (37800000 : Int) < 39600000 ∧ (39600000 : Int) < 43200000
    ∧ calculateWorkTimeForDate
        [⟨34200000, some "VSCode", some "w", false, none⟩,
         ⟨36000000, none, none, true, some "start"⟩,
         ⟨37800000, none, none, true, some "end"⟩,
         ⟨39600000, some "VSCode", some "w", false, none⟩] true 43200000 ["VSCode"] []
        = some ⟨durSec 34200000 36000000 + durSec 39600000 43200000,
                [⟨34200000, 36000000, durSec 34200000 36000000⟩,
                 ⟨39600000, 43200000, durSec 39600000 43200000⟩], 2⟩ := by
  have h := afkSplit_amended 34200000 36000000 37800000 39600000 43200000
    (some "VSCode") (some "w") ["VSCode"] [] (by decide)
    (by decide) (by decide) (by decide) (by decide)
  exact ⟨by decide, by decide, by decide, by decide, by decide, h.1⟩

/-! ## C9: the daily-summary upsert -/

/-- C9: `updateDailySummary` is a keyed upsert: rows for other dates are
untouched (so at most one row per date exists), the written row always
carries the new `total_work_seconds`, `goal_seconds` and `sessions_count`,
and `productive_seconds` / `projects_json` fall back to the previously
stored values exactly when the new write passes null for them. -/
theorem updateDailySummary_spec (table : String → Option SummaryRow)
    (date : String) (totalWorkSeconds goalSeconds sessionsCount : Int)
    (productiveSeconds : Option Int) (projectsJson : Option String) :
    (∀ d, d ≠ date →
      updateDailySummary table date totalWorkSeconds goalSeconds sessionsCount
        productiveSeconds projectsJson d = table d)
    ∧ (∃ row,
        updateDailySummary table date totalWorkSeconds goalSeconds sessionsCount
          productiveSeconds projectsJson date = some row
        ∧ row.total_work_seconds = some totalWorkSeconds
        ∧ row.goal_seconds = some goalSeconds
        ∧ row.sessions_count = some sessionsCount
        ∧ (∀ old, table date = some old → productiveSeconds = none →
            row.productive_seconds = old.productive_seconds)
        ∧ (∀ old, table date = some old → projectsJson = none →
            row.projects_json = old.projects_json)
        ∧ (∀ p, productiveSeconds = some p → row.productive_seconds = some p)
        ∧ (∀ p, projectsJson = some p → row.projects_json = some p)) := by
  constructor
  · intro d hd
    simp [updateDailySummary, hd]
  · cases hold : table date with
    | none =>
      refine ⟨⟨some totalWorkSeconds, some goalSeconds, some sessionsCount,
          productiveSeconds, projectsJson⟩,
        by simp [updateDailySummary, hold], rfl, rfl, rfl, ?_, ?_, ?_, ?_⟩
      · intro old h
        exact absurd h (by simp)
      · intro old h
        exact absurd h (by simp)
      · intro p hp
        simp [hp]
      · intro p hp
        simp [hp]
    | some old =>
      refine ⟨⟨some totalWorkSeconds, some goalSeconds, some sessionsCount,
          productiveSeconds <|> old.productive_seconds,
          projectsJson <|> old.projects_json⟩,
        by simp [updateDailySummary, hold], rfl, rfl, rfl, ?_, ?_, ?_, ?_⟩
      · intro old2 h hnone
        obtain rfl : old = old2 := by simpa using h
        simp [hnone]
      · intro old2 h hnone
        obtain rfl : old = old2 := by simpa using h
        simp [hnone]
      · intro p hp; simp [hp]
      · intro p hp; simp [hp]

/-- Witness for C9: rewriting a summary without enrichment data keeps the
stored `productive_seconds` and `projects_json` while overwriting the
other columns, and leaves other dates alone. -/
theorem updateDailySummary_spec_witness :
    updateDailySummary
        (fun d => if d = "2024-01-15" then some ⟨some 100, some 200, some 3, some 42, some "x"⟩ else none)
        "2024-01-15" 500 600 7 none none "2024-01-15"
      = some ⟨some 500, some 600, some 7, some 42, some "x"⟩
    ∧ updateDailySummary
        (fun d => if d = "2024-01-15" then some ⟨some 100, some 200, some 3, some 42, some "x"⟩ else none)
        "2024-01-15" 500 600 7 none none "2024-01-16"
      = none := by
  have h := updateDailySummary_spec
    (fun d => if d = "2024-01-15" then some ⟨some 100, some 200, some 3, some 42, some "x"⟩ else none)
    "2024-01-15" 500 600 7 none none
  obtain ⟨row, hrow, ht, hg, hc, hp, hj, _, _⟩ := h.2
  constructor
  · rw [hrow]
    have hold : (fun d => if d = "2024-01-15" then
          some (SummaryRow.mk (some 100) (some 200) (some 3) (some 42) (some "x")) else none)
        "2024-01-15" = some ⟨some 100, some 200, some 3, some 42, some "x"⟩ := by simp
    have hp' := hp _ hold rfl
    have hj' := hj _ hold rfl
    cases row
    simp_all
  · exact h.1 "2024-01-16" (by decide)

/-! ## C10: the streak compares against the current configured goal -/

/-- Whether a stored day qualifies for the streak: a summary row exists
and its `total_work_seconds` (null as 0) reaches `goalSeconds`. -/
def streakQualifies (summaries : Int → Option SummaryRow) (goalSeconds : Int)
    (d : Int) : Bool :=
  match summaries d with
  | some summary => goalSeconds ≤ summary.total_work_seconds.getD 0
  | none => false

theorem streakLoop_congr (s1 s2 : Int → Option SummaryRow) (goalSeconds : Int)
    (hagree : ∀ d, (s1 d).map (fun r => r.total_work_seconds)
      = (s2 d).map (fun r => r.total_work_seconds)) :
    ∀ (fuel : Nat) (date : Int) (streak : Nat),
      streakLoop s1 goalSeconds fuel date streak
        = streakLoop s2 goalSeconds fuel date streak := by
  intro fuel
  induction fuel with
  | zero => intro date streak; rfl
  | succ n ih =>
    intro date streak
    have h := hagree date
    unfold streakLoop
    cases h1 : s1 date with
    | none =>
      rw [h1] at h
      cases h2 : s2 date with
      | none => rfl
      | some r2 => rw [h2] at h; exact absurd h (by simp)
    | some r1 =>
      rw [h1] at h
      cases h2 : s2 date with
      | none => rw [h2] at h; exact absurd h (by simp)
      | some r2 =>
        rw [h2] at h
        have htot : r1.total_work_seconds = r2.total_work_seconds := by simpa using h
        dsimp only
        rw [htot]
        by_cases hq : goalSeconds ≤ r2.total_work_seconds.getD 0
        · simp only [if_pos hq]
          by_cases h365 : 365 < streak + 1
          · simp [h365]
          · simp only [h365, if_false]
            exact ih (date - 1) (streak + 1)
        · simp [hq]

/-- C10: the streak walk compares each stored day against the goal derived
from the configuration current at evaluation time and ignores the
`goal_seconds` snapshot stored in the rows (first conjunct: any two
summary stores agreeing on existence and `total_work_seconds` — however
their `goal_seconds` columns differ — give the same streak), and editing
the configured daily goal retroactively changes which stored days count
(second and third conjuncts: the same store yields streak 2 with a
120-second goal and streak 0 with a 180-second goal, even though every
stored row snapshots `goal_seconds = 999`). -/
theorem calculateStreak_currentGoal :
    (∀ (s1 s2 : Int → Option SummaryRow) (dailyGoalMinutes today : Int),
      (∀ d, (s1 d).map (fun r => r.total_work_seconds)
        = (s2 d).map (fun r => r.total_work_seconds)) →
      calculateStreak s1 dailyGoalMinutes today
        = calculateStreak s2 dailyGoalMinutes today)
    ∧ calculateStreak
        (fun d => if d = 0 ∨ d = -1 then some ⟨some 150, some 999, none, none, none⟩ else none)
        2 0 = 2
    ∧ calculateStreak
        (fun d => if d = 0 ∨ d = -1 then some ⟨some 150, some 999, none, none, none⟩ else none)
        3 0 = 0 := by
  refine ⟨?_, ?_, ?_⟩
  · intro s1 s2 goalMin today hagree
    exact streakLoop_congr s1 s2 (goalMin * 60) hagree 367 today 0
  · decide
  · decide

/-- Witness for C10: two stores that differ only in the stored
`goal_seconds` snapshots produce the same streak. -/
theorem calculateStreak_currentGoal_witness :
    calculateStreak (fun d => if d = 0 then some ⟨some 100, some 1, none, none, none⟩ else none) 1 0
      = calculateStreak (fun d => if d = 0 then some ⟨some 100, some 99999, none, none, none⟩ else none) 1 0 := by
  exact calculateStreak_currentGoal.1 _ _ 1 0 (fun d => by by_cases h : d = 0 <;> simp [h])

/-! ## C8: the streak bound -/

theorem streakLoop_le (summaries : Int → Option SummaryRow) (goalSeconds : Int) :
    ∀ (fuel : Nat) (date : Int) (streak : Nat),
      streakLoop summaries goalSeconds fuel date streak ≤ max (streak + 1) 366 := by
  intro fuel
  induction fuel with
  | zero =>
    intro date streak
    exact le_max_of_le_left (Nat.le_succ streak)
  | succ n ih =>
    intro date streak
    unfold streakLoop
    cases hs : summaries date with
    | none => exact le_max_of_le_left (Nat.le_succ streak)
    | some r =>
      dsimp only
      by_cases hq : goalSeconds ≤ r.total_work_seconds.getD 0
      · simp only [if_pos hq]
        by_cases h365 : 365 < streak + 1
        · simp only [if_pos h365]
          exact Nat.le_max_left _ _
        · simp only [if_neg h365]
          calc streakLoop summaries goalSeconds n (date - 1) (streak + 1)
              ≤ max (streak + 1 + 1) 366 := ih (date - 1) (streak + 1)
            _ = 366 := Nat.max_eq_right (by omega)
            _ ≤ max (streak + 1) 366 := Nat.le_max_right _ _
      · simp only [if_neg hq]
        exact le_max_of_le_left (Nat.le_succ streak)

theorem streakLoop_count (summaries : Int → Option SummaryRow) (goalSeconds : Int) :
    ∀ (k : Nat) (fuel : Nat) (date : Int) (streak : Nat),
      streak + k ≤ 365 → k < fuel →
      (∀ i : Nat, i < k → streakQualifies summaries goalSeconds (date - i) = true) →
      streakQualifies summaries goalSeconds (date - k) = false →
      streakLoop summaries goalSeconds fuel date streak = streak + k := by
  intro k
  induction k with
  | zero =>
    intro fuel date streak hle hfuel hall hfail
    cases fuel with
    | zero => omega
    | succ n =>
      unfold streakLoop
      unfold streakQualifies at hfail
      simp only [Nat.cast_zero, sub_zero] at hfail
      cases hs : summaries date with
      | none => rfl
      | some r =>
        rw [hs] at hfail
        simp only [decide_eq_false_iff_not] at hfail
        simp [hfail]
  | succ k ih =>
    intro fuel date streak hle hfuel hall hfail
    cases fuel with
    | zero => omega
    | succ n =>
      unfold streakLoop
      have h0 := hall 0 (by omega)
      unfold streakQualifies at h0
      simp only [Nat.cast_zero, sub_zero] at h0
      cases hs : summaries date with
      | none => rw [hs] at h0; exact absurd h0 (by simp)
      | some r =>
        rw [hs] at h0
        simp only [decide_eq_true_eq] at h0
        dsimp only
        rw [if_pos h0, if_neg (by omega : ¬ 365 < streak + 1)]
        have hall' : ∀ i : Nat, i < k →
            streakQualifies summaries goalSeconds (date - 1 - i) = true := by
          intro i hi
          have := hall (i + 1) (by omega)
          have harith : date - ((i : Int) + 1) = date - 1 - i := by ring
          rw [show ((i + 1 : Nat) : Int) = (i : Int) + 1 by push_cast; ring, harith] at this
          exact this
        have hfail' : streakQualifies summaries goalSeconds (date - 1 - k) = false := by
          have harith : date - ((k : Int) + 1) = date - 1 - k := by ring
          rw [show ((k + 1 : Nat) : Int) = (k : Int) + 1 by push_cast; ring, harith] at hfail
          exact hfail
        rw [ih n (date - 1) (streak + 1) (by omega) (by omega) hall' hfail']
        omega

set_option maxRecDepth 4000 in
/-- Counterexample to C8 as stated: with a store in which every day meets
the goal, the loop increments to 366 before the safety check `streak >
365` fires, so the returned streak exceeds 365. -/
theorem calculateStreak_counterexample :
    calculateStreak (fun _ => some ⟨some 1, none, none, none, none⟩) 0 0 = 366
    ∧ 365 < 366 := by
  exact ⟨by decide, by decide⟩

/-- C8 amended: the streak counts consecutive qualifying calendar days
walking backward from today — for `k ≤ 365` qualifying days followed by a
failing day it returns exactly `k` — and the safety bound stops the walk
once the count exceeds 365, so the returned value never exceeds 366 (366
is reachable, 365 is not the cap). -/
theorem calculateStreak_amended :
    (∀ (summaries : Int → Option SummaryRow) (dailyGoalMinutes today : Int) (k : Nat),
      k ≤ 365 →
      (∀ i : Nat, i < k →
        streakQualifies summaries (dailyGoalMinutes * 60) (today - i) = true) →
      streakQualifies summaries (dailyGoalMinutes * 60) (today - k) = false →
      calculateStreak summaries dailyGoalMinutes today = k)
    ∧ (∀ (summaries : Int → Option SummaryRow) (dailyGoalMinutes today : Int),
        calculateStreak summaries dailyGoalMinutes today ≤ 366) := by
  constructor
  · intro s g today k hk hall hfail
    have h := streakLoop_count s (g * 60) k 367 today 0 (by omega) (by omega) hall hfail
    simpa using h
  · intro s g today
    have h := streakLoop_le s (g * 60) 367 today 0
    simpa using h

/-- Witness for the amended C8: one qualifying day followed by a missing
summary gives streak exactly 1. -/
theorem calculateStreak_amended_witness :
    (1 : Nat) ≤ 365
    ∧ calculateStreak
        (fun d => if d = 0 then some ⟨some 150, some 999, none, none, none⟩ else none)
        1 0 = 1 := by
  refine ⟨by decide, ?_⟩
  refine calculateStreak_amended.1 _ 1 0 1 (by decide) ?_ (by decide)
  intro i hi
  have : i = 0 := by omega
  subst this
  decide

/-! ## C6: project detection -/

theorem findSome?_keyword_none (txt : String) (kws : List (String × List String))
    (h : ∀ p ∈ kws, keywordHit txt p = false) :
    kws.findSome? (fun p => if keywordHit txt p then some p.1 else none) = none := by
  induction kws with
  | nil => rfl
  | cons q rest ih =>
    rw [List.findSome?_cons]
    simp only [h q (List.mem_cons_self q rest), Bool.false_eq_true, if_false]
    exact ih (fun p hp => h p (List.mem_cons_of_mem q hp))

theorem findSome?_keyword_first (txt : String) (pre post : List (String × List String))
    (name : String) (ks : List String)
    (hpre : ∀ p ∈ pre, keywordHit txt p = false)
    (hhit : keywordHit txt (name, ks) = true) :
    (pre ++ (name, ks) :: post).findSome?
      (fun p => if keywordHit txt p then some p.1 else none) = some name := by
  induction pre with
  | nil =>
    rw [List.nil_append, List.findSome?_cons]
    simp [hhit]
  | cons q rest ih =>
    rw [List.cons_append, List.findSome?_cons]
    simp only [hpre q (List.mem_cons_self q rest), Bool.false_eq_true, if_false]
    exact ih (fun p hp => hpre p (List.mem_cons_of_mem q hp))

/-- C6: project detection tries the configured keyword map first, in entry
order with the first matching project winning (a keyword matches when its
lowercased form is a substring of the lowercased title-plus-app search
string); with no keyword match it falls through to the pattern cascade in
fixed priority order — accepted editor-title extraction, filesystem-path
final segment, hosting-service repository, ticket prefix — returning the
first successful extraction and `"Uncategorized"` when all fail; and on
`detectProject("myrepo - Visual Studio Code", "Code")` with no configured
keywords it returns `"myrepo"`. -/
theorem detectProject_spec :
    (∀ (pre post : List (String × List String)) (name : String) (ks : List String)
        (wt app : Option String),
      (jsStrFalsy wt && jsStrFalsy app) = false →
      (∀ p ∈ pre, keywordHit (searchTextOf wt app) p = false) →
      keywordHit (searchTextOf wt app) (name, ks) = true →
      detectProject (pre ++ (name, ks) :: post) wt app = name)
    ∧ (∀ (kws : List (String × List String)) (wt app : Option String),
        (jsStrFalsy wt && jsStrFalsy app) = false →
        (∀ p ∈ kws, keywordHit (searchTextOf wt app) p = false) →
        detectProject kws wt app = detectFromPatterns wt app)
    ∧ (∀ (wt app : Option String) (f : List Char), jsStrFalsy wt = false →
        vsCodeAccepted (wt.getD "").toList = some f →
        detectFromPatterns wt app = ⟨f⟩)
    ∧ (∀ (wt app : Option String) (g : List Char), jsStrFalsy wt = false →
        vsCodeAccepted (wt.getD "").toList = none →
        scanMatch matchPathAt (wt.getD "").toList = some g →
        detectFromPatterns wt app = ⟨g⟩)
    ∧ (∀ (wt app : Option String) (g : List Char), jsStrFalsy wt = false →
        vsCodeAccepted (wt.getD "").toList = none →
        scanMatch matchPathAt (wt.getD "").toList = none →
        scanMatch matchGithubAt (wt.getD "").toList = some g →
        detectFromPatterns wt app = ⟨g⟩)
    ∧ (∀ (wt app : Option String) (p : List Char), jsStrFalsy wt = false →
        vsCodeAccepted (wt.getD "").toList = none →
        scanMatch matchPathAt (wt.getD "").toList = none →
        scanMatch matchGithubAt (wt.getD "").toList = none →
        scanMatch matchTicketAt (wt.getD "").toList = some p →
        detectFromPatterns wt app = ⟨p⟩)
    ∧ (∀ (wt app : Option String), jsStrFalsy wt = false →
        vsCodeAccepted (wt.getD "").toList = none →
        scanMatch matchPathAt (wt.getD "").toList = none →
        scanMatch matchGithubAt (wt.getD "").toList = none →
        scanMatch matchTicketAt (wt.getD "").toList = none →
        detectFromPatterns wt app = "Uncategorized")
    ∧ detectProject [] (some "myrepo - Visual Studio Code") (some "Code") = "myrepo" := by
  refine ⟨?_, ?_, ?_, ?_, ?_, ?_, ?_, by decide⟩
  · intro pre post name ks wt app hguard hpre hhit
    simp only [detectProject, hguard, Bool.false_eq_true, if_false]
    rw [findSome?_keyword_first (searchTextOf wt app) pre post name ks hpre hhit]
  · intro kws wt app hguard hnone
    simp only [detectProject, hguard, Bool.false_eq_true, if_false]
    rw [findSome?_keyword_none (searchTextOf wt app) kws hnone]
  · intro wt app f hfalsy hvsc
    simp only [detectFromPatterns, hfalsy, Bool.false_eq_true, if_false, hvsc]
  · intro wt app g hfalsy hvsc hpath
    simp only [detectFromPatterns, hfalsy, Bool.false_eq_true, if_false, hvsc, hpath]
  · intro wt app g hfalsy hvsc hpath hgh
    simp only [detectFromPatterns, hfalsy, Bool.false_eq_true, if_false, hvsc, hpath, hgh]
  · intro wt app p hfalsy hvsc hpath hgh htk
    simp only [detectFromPatterns, hfalsy, Bool.false_eq_true, if_false, hvsc, hpath, hgh, htk]
  · intro wt app hfalsy hvsc hpath hgh htk
    simp only [detectFromPatterns, hfalsy, Bool.false_eq_true, if_false, hvsc, hpath, hgh, htk]

/-- Witness for C6: a configured keyword match beats the pattern cascade
and is found case-insensitively. -/
theorem detectProject_spec_witness :
    keywordHit (searchTextOf (some "bar FOO baz") none) ("Work", ["foo"]) = true
    ∧ detectProject [("Work", ["foo"])] (some "bar FOO baz") none = "Work" := by
  refine ⟨by decide, ?_⟩
  have h := detectProject_spec.1 [] [] "Work" ["foo"] (some "bar FOO baz") none
    (by decide) (by intro p hp; exact absurd hp (by simp)) (by decide)
  simpa using h

/-! ## C7: the hourly histogram versus the reconstructed sessions -/

theorem hourlyFromSessions_append (ss : List Session) (s : Session) :
    hourlyFromSessions (ss ++ [s]) =
      addTimeToHours (hourlyFromSessions ss) s.start s.endTime := by
  simp [hourlyFromSessions, List.foldl_append]

theorem hourly_close (cst : CalcState) (h : List Int) (s t : Int)
    (hH : h = hourlyFromSessions cst.sessions) :
    addTimeToHours h s t = hourlyFromSessions (closeSession cst s t).sessions := by
  rw [closeSession_sessions]
  by_cases hd : 0 < durSec s t
  · rw [if_pos hd, hourlyFromSessions_append, hH]
  · rw [if_neg hd]
    have hle : t ≤ s := by
      by_contra hc
      exact hd (durSec_pos.mpr (lt_of_not_ge hc))
    rw [addTimeToHours_of_le hle, hH]

/-- The simulation relation between the `calculateWorkTimeForDate` walk
and the `get-hourly-stats` walk: same AFK flag, same open-session state
(with the reachability invariant that no session is open while AFK), and
the running histogram is the fold of the recorded sessions. -/
def SimRel (cst : CalcState) (hst : HourState) : Prop :=
  hst.isAfk = cst.isAfk
  ∧ hst.sessionStart = cst.sessionStart
  ∧ (cst.isAfk = true → cst.sessionStart = none)
  ∧ hst.hourly = hourlyFromSessions cst.sessions

theorem simRel_step (apps sites : List String) (cst : CalcState)
    (hst : HourState) (a : Activity) (h : SimRel cst hst) :
    SimRel (calcStep apps sites cst a) (hourlyStep apps sites hst a) := by
  obtain ⟨hA, hS, hInv, hH⟩ := h
  unfold calcStep hourlyStep
  by_cases hafk : a.is_afk = true
  · simp only [hafk, if_true]
    by_cases hstart : a.afk_type = some "start"
    · simp only [hstart, if_true]
      cases hcs : cst.sessionStart with
      | none =>
        rw [hS, hcs]
        exact ⟨rfl, rfl, fun _ => rfl, hH⟩
      | some s =>
        have hAv : cst.isAfk = false := by
          cases hv : cst.isAfk with
          | false => rfl
          | true => rw [hInv hv] at hcs; exact absurd hcs (by simp)
        rw [hS, hcs, hA, hAv]
        simp only [Bool.false_eq_true, if_false]
        refine ⟨rfl, (closeSession_sessionStart cst s a.timestamp).symm,
          fun _ => closeSession_sessionStart cst s a.timestamp, ?_⟩
        exact hourly_close cst hst.hourly s a.timestamp hH
    · simp only [hstart, if_false]
      by_cases hend : a.afk_type = some "end"
      · simp only [hend, if_true]
        exact ⟨rfl, hS, fun hc => absurd hc (by simp), hH⟩
      · simp only [hend, if_false]
        exact ⟨hA, hS, fun hc => hInv hc, hH⟩
  · simp only [hafk, Bool.false_eq_true, if_false]
    cases hAv : cst.isAfk with
    | true =>
      rw [hA, hAv]
      simp only [if_true]
      exact ⟨hA, hS, hInv, hH⟩
    | false =>
      rw [hA, hAv]
      simp only [Bool.false_eq_true, if_false]
      by_cases hprod : isProductiveActivity a.app_name a.window_title apps sites = true
      · simp only [hprod, if_true]
        cases hcs : cst.sessionStart with
        | none =>
          rw [hS, hcs]
          refine ⟨?_, ?_, ?_, ?_⟩ <;> simp_all
        | some s =>
          rw [hS, hcs]
          refine ⟨?_, ?_, ?_, ?_⟩ <;> simp_all
      · simp only [hprod, Bool.false_eq_true, if_false]
        cases hcs : cst.sessionStart with
        | none =>
          rw [hS, hcs]
          refine ⟨?_, ?_, ?_, ?_⟩ <;> simp_all
        | some s =>
          rw [hS, hcs]
          refine ⟨?_, ?_, ?_, ?_⟩
          · rw [closeSession_isAfk]
            exact hAv.symm
          · exact (closeSession_sessionStart cst s a.timestamp).symm
          · intro hc
            rw [closeSession_isAfk, hAv] at hc
            exact absurd hc (by simp)
          · exact hourly_close cst hst.hourly s a.timestamp hH

theorem simRel_foldl (apps sites : List String) (activities : List Activity)
    (cst : CalcState) (hst : HourState) (h : SimRel cst hst) :
    SimRel (activities.foldl (calcStep apps sites) cst)
      (activities.foldl (hourlyStep apps sites) hst) := by
  induction activities generalizing cst hst with
  | nil => exact h
  | cons a rest ih => exact ih _ _ (simRel_step apps sites cst hst a h)

/-- C7 amended: the `get-hourly-stats` event walk produces exactly the
histogram obtained by feeding the reconstructed sessions of
`calculateWorkTimeForDate` to `addTimeToHours`, provided the queried date
is today or the walk ends with no session open; on a past date with a
trailing open session the event walk omits the final clamped session
(see the counterexample). -/
theorem getHourlyStats_amended (activities : List Activity) (isToday : Bool)
    (now : Int) (apps sites : List String)
    (hyp : isToday = true ∨
      (activities.foldl (calcStep apps sites) initState).sessionStart = none) :
    getHourlyStats activities isToday now apps sites
      = hourlyFromSessions (sessionsOf
          (calculateWorkTimeForDate activities isToday now apps sites)) := by
  by_cases hnil : activities = []
  · subst hnil
    rfl
  · obtain ⟨hA, hS, hInv, hH⟩ := simRel_foldl apps sites activities initState
      ⟨false, none, zeroHours⟩ ⟨rfl, rfl, fun _ => rfl, rfl⟩
    unfold getHourlyStats calculateWorkTimeForDate
    rw [if_neg hnil, if_neg hnil]
    dsimp only [sessionsOf]
    unfold finishCalc
    rw [hS, hA]
    cases hcs : (activities.foldl (calcStep apps sites) initState).sessionStart with
    | none => exact hH
    | some s =>
      cases hAv : (activities.foldl (calcStep apps sites) initState).isAfk with
      | true =>
        exact absurd ((hInv hAv).symm.trans hcs) (by simp)
      | false =>
        simp only [Bool.not_false, Bool.true_and, Bool.false_eq_true, if_false]
        cases isToday with
        | true =>
          simp only [if_true]
          exact hourly_close _ _ s now hH
        | false =>
          rcases hyp with h1 | h1
          · exact absurd h1 (by simp)
          · exact absurd (h1.symm.trans hcs) (by simp)

/-- Witness for the amended C7: on a live (today) query the event-walk
histogram and the session-derived histogram coincide. -/
theorem getHourlyStats_amended_witness :
    (true = true ∨
      ([⟨34200000, some "VSCode", some "w", false, none⟩,
        ⟨36000000, some "VSCode", some "w", false, none⟩].foldl
          (calcStep ["VSCode"] []) initState).sessionStart = none)
    ∧ getHourlyStats
        [⟨34200000, some "VSCode", some "w", false, none⟩,
         ⟨36000000, some "VSCode", some "w", false, none⟩] true 37800000 ["VSCode"] []
      = hourlyFromSessions (sessionsOf (calculateWorkTimeForDate
          [⟨34200000, some "VSCode", some "w", false, none⟩,
           ⟨36000000, some "VSCode", some "w", false, none⟩] true 37800000 ["VSCode"] [])) := by
  exact ⟨Or.inl rfl,
    getHourlyStats_amended
      [⟨34200000, some "VSCode", some "w", false, none⟩,
       ⟨36000000, some "VSCode", some "w", false, none⟩] true 37800000 ["VSCode"] []
      (Or.inl rfl)⟩

/-- Counterexample to C7 as stated: on a past day whose stream ends with
an open productive session, the event walk drops the trailing session
(`get-hourly-stats` adds the open interval only when the date is today),
while `calculateWorkTimeForDate` clamps it to the last timestamp and
records it, so the two histograms disagree. -/
theorem getHourlyStats_counterexample :
    getHourlyStats
      [⟨34200000, some "VSCode", some "w", false, none⟩,
       ⟨36000000, some "VSCode", some "w", false, none⟩] false 0 ["VSCode"] []
      ≠ hourlyFromSessions (sessionsOf (calculateWorkTimeForDate
          [⟨34200000, some "VSCode", some "w", false, none⟩,
           ⟨36000000, some "VSCode", some "w", false, none⟩] false 0 ["VSCode"] [])) := by
  have hcalc : calculateWorkTimeForDate
      [⟨34200000, some "VSCode", some "w", false, none⟩,
       ⟨36000000, some "VSCode", some "w", false, none⟩] false 0 ["VSCode"] []
      = some ⟨durSec 34200000 36000000,
              [⟨34200000, 36000000, durSec 34200000 36000000⟩], 1⟩ := by
    simp [calculateWorkTimeForDate, calcStep, closeSession, finishCalc, initState,
      isProductiveActivity, jsStrFalsy, strContains, strContainsAux, charsMatchAt,
      browsers, durSec_pos]
  rw [hcalc]
  decide
